import Mathlib

/-!
Formal model of the twitch-tools core: the rate-limited request dispatcher
(src/twitch/http.py) and the paginated fetch iterators
(src/twitch/iterators.py, src/twitch/utils.py).

Each definition is a shallow embedding of the corresponding Python function;
doc comments name the source symbol it translates.
-/

namespace Twitch

/-- Value of a query parameter as built by Route.__init__: Python strings or
integers (e.g. the `first` parameter of get_streams is an int). -/
inductive PyVal where
  | str (s : String)
  | int (n : Int)
deriving DecidableEq

/-- Route.__init__ applies urllib.parse.quote to string-typed parameter values
and leaves other values unchanged. quote itself is an external stdlib function,
passed here as an abstract parameter. -/
def encodeParam (quote : String → String) : String × PyVal → String × PyVal
  | (k, .str s) => (k, .str (quote s))
  | (k, .int n) => (k, .int n)

/-- Python comparison of parameter values as used by sorted() on the pair list.
Within this repository values compared for one key always have one type;
Python would raise TypeError on a mixed comparison, which we totalise by
ordering ints below strings (the case never arises for equal keys here). -/
def pyValLe : PyVal → PyVal → Bool
  | .int a, .int b => a ≤ b
  | .int _, .str _ => true
  | .str _, .int _ => false
  | .str a, .str b => a ≤ b

/-- Lexicographic order on (key, value) pairs used by sorted(self.params) in
Route.__repr__: keys first, values only on equal keys. -/
def paramLe (p q : String × PyVal) : Bool :=
  if p.1 = q.1 then pyValLe p.2 q.2 else p.1 < q.1

/-- paramLe as a relation, for use with the sorting lemmas. -/
def ParamLE (p q : String × PyVal) : Prop := paramLe p q = true

instance : DecidableRel ParamLE := fun p q =>
  decidable_of_iff (paramLe p q = true) Iff.rfl

theorem pyValLe_total (a b : PyVal) : pyValLe a b = true ∨ pyValLe b a = true := by
  cases a <;> cases b <;> simp only [pyValLe, decide_eq_true_eq] <;>
    first
      | exact le_total _ _
      | simp

theorem pyValLe_trans {a b c : PyVal} (h₁ : pyValLe a b = true)
    (h₂ : pyValLe b c = true) : pyValLe a c = true := by
  cases a <;> cases b <;> cases c <;>
    simp only [pyValLe, decide_eq_true_eq] at h₁ h₂ ⊢ <;>
    try exact le_trans h₁ h₂
  all_goals simp_all

theorem pyValLe_antisymm {a b : PyVal} (h₁ : pyValLe a b = true)
    (h₂ : pyValLe b a = true) : a = b := by
  cases a <;> cases b
  · simp only [pyValLe, decide_eq_true_eq] at h₁ h₂
    exact congrArg PyVal.str (le_antisymm h₁ h₂)
  · simp [pyValLe] at h₁
  · simp [pyValLe] at h₂
  · simp only [pyValLe, decide_eq_true_eq] at h₁ h₂
    exact congrArg PyVal.int (le_antisymm h₁ h₂)

instance : IsTotal (String × PyVal) ParamLE := by
  constructor
  intro p q
  unfold ParamLE paramLe
  by_cases h : p.1 = q.1
  · rw [if_pos h, if_pos h.symm]
    exact pyValLe_total _ _
  · rw [if_neg h, if_neg (Ne.symm h)]
    simp only [decide_eq_true_eq]
    exact lt_or_gt_of_ne h

instance : IsTrans (String × PyVal) ParamLE := by
  constructor
  intro p q r h₁ h₂
  unfold ParamLE paramLe at *
  by_cases hpq : p.1 = q.1 <;> by_cases hqr : q.1 = r.1
  · have hpr : p.1 = r.1 := hpq.trans hqr
    rw [if_pos hpq] at h₁
    rw [if_pos hqr] at h₂
    rw [if_pos hpr]
    exact pyValLe_trans h₁ h₂
  · rw [if_neg hqr, decide_eq_true_eq] at h₂
    have hpr : p.1 ≠ r.1 := by rw [hpq]; exact hqr
    rw [if_neg hpr, decide_eq_true_eq]
    rw [hpq]; exact h₂
  · rw [if_neg hpq, decide_eq_true_eq] at h₁
    have hpr : p.1 ≠ r.1 := by rw [← hqr]; exact hpq
    rw [if_neg hpr, decide_eq_true_eq]
    rw [← hqr]; exact h₁
  · rw [if_neg hpq, decide_eq_true_eq] at h₁
    rw [if_neg hqr, decide_eq_true_eq] at h₂
    have hlt : p.1 < r.1 := lt_trans h₁ h₂
    rw [if_neg (ne_of_lt hlt), decide_eq_true_eq]
    exact hlt

instance : IsAntisymm (String × PyVal) ParamLE := by
  constructor
  intro p q h₁ h₂
  unfold ParamLE paramLe at h₁ h₂
  by_cases h : p.1 = q.1
  · rw [if_pos h] at h₁
    rw [if_pos h.symm] at h₂
    obtain ⟨k₁, v₁⟩ := p
    obtain ⟨k₂, v₂⟩ := q
    simp only at h
    subst h
    exact congrArg (Prod.mk k₁) (pyValLe_antisymm h₁ h₂)
  · rw [if_neg h, decide_eq_true_eq] at h₁
    rw [if_neg (Ne.symm h), decide_eq_true_eq] at h₂
    exact absurd h₂ (lt_asymm h₁)

/-- Endpoint Signature. Route.__repr__ renders (method, path, tuple(sorted
(params))) and Route.__hash__ hashes that string; two routes with equal
(method, path, sorted encoded params) triples have equal repr strings and so
equal hashes, so we take the triple itself as the signature that selects the
rate gate in HTTPClient.request. -/
def routeSignature (quote : String → String) (method path : String)
    (params : List (String × PyVal)) :
    String × String × List (String × PyVal) :=
  (method, path, List.insertionSort ParamLE (params.map (encodeParam quote)))

/-- C3: for every HTTP method, path, and list of (key, value) query
parameters, the Endpoint Signature is invariant under any permutation of the
parameter list: two Route values built from the same method, path and the same
multiset of parameters in different orders have equal signatures. -/
theorem routeSignature_perm_invariant (quote : String → String)
    (method path : String) (p₁ p₂ : List (String × PyVal)) (h : p₁.Perm p₂) :
    routeSignature quote method path p₁ = routeSignature quote method path p₂ := by
  unfold routeSignature
  refine congrArg _ (congrArg _ ?_)
  exact List.eq_of_perm_of_sorted
    (((List.perm_insertionSort _ _).trans ((h.map _))).trans
      (List.perm_insertionSort _ _).symm)
    (List.sorted_insertionSort _ _) (List.sorted_insertionSort _ _)

/-- Witness for C3 at a concrete input: the two-element parameter list in both
orders yields the same signature. -/
theorem routeSignature_perm_invariant_witness :
    ([("name", PyVal.str "zelda"), ("id", PyVal.int 33)].Perm
      [("id", PyVal.int 33), ("name", PyVal.str "zelda")]) ∧
    routeSignature id "GET" "/games"
        [("name", PyVal.str "zelda"), ("id", PyVal.int 33)]
      = routeSignature id "GET" "/games"
        [("id", PyVal.int 33), ("name", PyVal.str "zelda")] :=
  ⟨by decide,
   routeSignature_perm_invariant id "GET" "/games" _ _ (by decide)⟩

/-- One HTTP response as seen by one attempt of HTTPClient.request: the status
code, the Ratelimit-Remaining header (raw string, absent when the header is
missing), the Ratelimit-Reset header already parsed to a timestamp in seconds,
and the body decoded by json_or_text. -/
structure Resp where
  status : Nat
  remaining : Option String
  reset : Int
  body : String
deriving DecidableEq

/-- Outcome of HTTPClient.request: the decoded body on 2xx, or the raised
HTTPException carrying the status and decoded body of the offending
response. -/
inductive ReqResult where
  | ok (body : String)
  | httpError (status : Nat) (body : String)
deriving DecidableEq

/-- Trace of one HTTPClient.request call: final outcome, the backoff sleeps
performed (seconds, in order), the delays handed to loop.call_later for
deferred gate release (in order), whether MaybeUnlock.__exit__ released the
gate when the call returned (self._unlock), and the index one past the last
attempt whose response was processed. -/
structure ReqTrace where
  result : ReqResult
  sleeps : List Nat
  deferredDeltas : List Int
  releasedImmediately : Bool
  attemptsEnd : Nat
deriving DecidableEq

/-- The defer condition of HTTPClient.request: remaining == "0" and
status != 429. -/
def deferTriggered (r : Resp) : Bool :=
  r.remaining == some "0" && r.status != 429

/-- Statuses retried by HTTPClient.request: r.status in {429, 500, 502, 503}. -/
def transientStatus (s : Nat) : Bool :=
  s == 429 || s == 500 || s == 502 || s == 503

/-- The attempt loop of HTTPClient.request, as a pure function of the response
each attempt would receive (resp) and the wall clock at each attempt (nowAt).
fuel counts the remaining iterations of range(5); attempt is the current index;
unlock is MaybeUnlock._unlock; sleeps and defs accumulate the trace. When the
loop ends without returning, the final HTTPException carries the last
response. -/
def requestGo (resp : Nat → Resp) (nowAt : Nat → Int) :
    Nat → Nat → Bool → List Nat → List Int → ReqTrace
  | 0, attempt, unlock, sleeps, defs =>
    { result := .httpError (resp (attempt - 1)).status (resp (attempt - 1)).body
      sleeps := sleeps
      deferredDeltas := defs
      releasedImmediately := unlock
      attemptsEnd := attempt }
  | fuel + 1, attempt, unlock, sleeps, defs =>
    let r := resp attempt
    let unlock₁ := if deferTriggered r then false else unlock
    let defs₁ := if deferTriggered r then defs ++ [r.reset - nowAt attempt] else defs
    if 200 ≤ r.status ∧ r.status < 300 then
      { result := .ok r.body
        sleeps := sleeps
        deferredDeltas := defs₁
        releasedImmediately := unlock₁
        attemptsEnd := attempt + 1 }
    else if transientStatus r.status then
      requestGo resp nowAt fuel (attempt + 1) unlock₁ (sleeps ++ [1 + attempt * 2]) defs₁
    else
      { result := .httpError r.status r.body
        sleeps := sleeps
        deferredDeltas := defs₁
        releasedImmediately := unlock₁
        attemptsEnd := attempt + 1 }

/-- HTTPClient.request after the gate for the route's signature has been
acquired: for attempt in range(5), starting with the gate to be released on
exit (MaybeUnlock._unlock = True) and empty trace. -/
def request (resp : Nat → Resp) (nowAt : Nat → Int) : ReqTrace :=
  requestGo resp nowAt 5 0 true [] []

/-- A transient status (429/500/502/503) is never a success status. -/
theorem transient_not_success {s : Nat} (h : transientStatus s = true) :
    ¬(200 ≤ s ∧ s < 300) := by
  unfold transientStatus at h
  simp only [Bool.or_eq_true, Nat.beq_eq_true_eq] at h
  omega

/-- Invariant of the attempt loop: the gate is released at return iff it was
still to be released on entry and no processed response triggered a deferral;
deferral deltas only accumulate; every processed triggering response has
contributed its reset - now delta. -/
theorem requestGo_release (resp : Nat → Resp) (nowAt : Nat → Int) :
    ∀ (fuel attempt : Nat) (unlock : Bool) (sleeps : List Nat) (defs : List Int),
    attempt ≤ (requestGo resp nowAt fuel attempt unlock sleeps defs).attemptsEnd ∧
    ((requestGo resp nowAt fuel attempt unlock sleeps defs).releasedImmediately = true ↔
      (unlock = true ∧ ∀ i, attempt ≤ i →
        i < (requestGo resp nowAt fuel attempt unlock sleeps defs).attemptsEnd →
        deferTriggered (resp i) = false)) ∧
    (∀ d ∈ defs, d ∈ (requestGo resp nowAt fuel attempt unlock sleeps defs).deferredDeltas) ∧
    (∀ i, attempt ≤ i →
      i < (requestGo resp nowAt fuel attempt unlock sleeps defs).attemptsEnd →
      deferTriggered (resp i) = true →
      ((resp i).reset - nowAt i) ∈
        (requestGo resp nowAt fuel attempt unlock sleeps defs).deferredDeltas) := by
  intro fuel
  induction fuel with
  | zero =>
    intro attempt unlock sleeps defs
    refine ⟨le_refl _, ?_, fun d hd => hd, fun i h₁ h₂ _ => ?_⟩
    · simp only [requestGo]
      constructor
      · intro h
        exact ⟨h, fun i h₁ h₂ => absurd h₂ (by omega)⟩
      · intro h
        exact h.1
    · exact absurd h₂ (by simp only [requestGo] at *; omega)
  | succ fuel ih =>
    intro attempt unlock sleeps defs
    by_cases htrig : deferTriggered (resp attempt) = true
    · by_cases h2 : 200 ≤ (resp attempt).status ∧ (resp attempt).status < 300
      · simp only [requestGo, htrig, if_true, if_pos h2]
        refine ⟨by omega, ?_, ?_, ?_⟩
        · constructor
          · intro h
            exact absurd h (by simp)
          · intro ⟨_, hall⟩
            exact absurd (hall attempt (le_refl _) (by omega)) (by simp [htrig])
        · intro d hd
          exact List.mem_append_left _ hd
        · intro i h₁ h₂ _
          have : i = attempt := by omega
          subst this
          exact List.mem_append_right _ (List.mem_singleton.mpr rfl)
      · by_cases ht : transientStatus (resp attempt).status = true
        · simp only [requestGo, htrig, if_true, if_neg h2, ht]
          obtain ⟨ih₁, ih₂, ih₃, ih₄⟩ :=
            ih (attempt + 1) false (sleeps ++ [1 + attempt * 2])
              (defs ++ [(resp attempt).reset - nowAt attempt])
          refine ⟨by omega, ?_, ?_, ?_⟩
          · constructor
            · intro h
              obtain ⟨hfalse, _⟩ := ih₂.mp h
              exact absurd hfalse (by simp)
            · intro ⟨_, hall⟩
              exact absurd (hall attempt (le_refl _) (by omega)) (by simp [htrig])
          · intro d hd
            exact ih₃ d (List.mem_append_left _ hd)
          · intro i h₁ h₂ hi
            by_cases hia : i = attempt
            · subst hia
              exact ih₃ _ (List.mem_append_right _ (List.mem_singleton.mpr rfl))
            · exact ih₄ i (by omega) h₂ hi
        · simp only [requestGo, htrig, if_true, if_neg h2, ht, if_false, Bool.false_eq_true]
          refine ⟨by omega, ?_, ?_, ?_⟩
          · constructor
            · intro h
              exact absurd h (by simp)
            · intro ⟨_, hall⟩
              exact absurd (hall attempt (le_refl _) (by omega)) (by simp [htrig])
          · intro d hd
            exact List.mem_append_left _ hd
          · intro i h₁ h₂ _
            have : i = attempt := by omega
            subst this
            exact List.mem_append_right _ (List.mem_singleton.mpr rfl)
    · have htrig' : deferTriggered (resp attempt) = false := by
        simpa using htrig
      by_cases h2 : 200 ≤ (resp attempt).status ∧ (resp attempt).status < 300
      · simp only [requestGo, htrig', if_false, Bool.false_eq_true, if_pos h2]
        refine ⟨by omega, ?_, fun d hd => hd, ?_⟩
        · constructor
          · intro h
            refine ⟨h, fun i h₁ h₂ => ?_⟩
            have : i = attempt := by omega
            subst this
            exact htrig'
          · intro h
            exact h.1
        · intro i h₁ h₂ hi
          have : i = attempt := by omega
          subst this
          exact absurd hi (by simp [htrig'])
      · by_cases ht : transientStatus (resp attempt).status = true
        · simp only [requestGo, htrig', if_false, Bool.false_eq_true, if_neg h2, ht,
            if_true]
          obtain ⟨ih₁, ih₂, ih₃, ih₄⟩ :=
            ih (attempt + 1) unlock (sleeps ++ [1 + attempt * 2]) defs
          refine ⟨by omega, ?_, ih₃, ?_⟩
          · constructor
            · intro h
              obtain ⟨hu, hall⟩ := ih₂.mp h
              refine ⟨hu, fun i h₁ h₂ => ?_⟩
              by_cases hia : i = attempt
              · subst hia; exact htrig'
              · exact hall i (by omega) h₂
            · intro ⟨hu, hall⟩
              exact ih₂.mpr ⟨hu, fun i h₁ h₂ => hall i (by omega) h₂⟩
          · intro i h₁ h₂ hi
            by_cases hia : i = attempt
            · subst hia
              exact absurd hi (by simp [htrig'])
            · exact ih₄ i (by omega) h₂ hi
        · simp only [requestGo, htrig', if_false, Bool.false_eq_true, if_neg h2, ht]
          refine ⟨by omega, ?_, fun d hd => hd, ?_⟩
          · constructor
            · intro h
              refine ⟨h, fun i h₁ h₂ => ?_⟩
              have : i = attempt := by omega
              subst this
              exact htrig'
            · intro h
              exact h.1
          · intro i h₁ h₂ hi
            have : i = attempt := by omega
            subst this
            exact absurd hi (by simp [htrig'])

/-- C1 (amended): execute releases the gate immediately when the call returns
iff no response processed during the call had Ratelimit-Remaining "0" with
status different from 429; for every processed response that did, a gate
release is scheduled at now + (reset_timestamp - now); a later response
without the condition does not restore immediate release (the defer flag is
sticky for the whole call). -/
theorem request_gateRelease (resp : Nat → Resp) (nowAt : Nat → Int) :
    ((request resp nowAt).releasedImmediately = true ↔
      ∀ i, i < (request resp nowAt).attemptsEnd → deferTriggered (resp i) = false) ∧
    (∀ i, i < (request resp nowAt).attemptsEnd → deferTriggered (resp i) = true →
      ((resp i).reset - nowAt i) ∈ (request resp nowAt).deferredDeltas) := by
  obtain ⟨h₁, h₂, h₃, h₄⟩ := requestGo_release resp nowAt 5 0 true [] []
  constructor
  · constructor
    · intro h
      exact fun i hi => (h₂.mp h).2 i (Nat.zero_le i) hi
    · intro h
      exact h₂.mpr ⟨rfl, fun i _ hi => h i hi⟩
  · intro i hi htrig
    exact h₄ i (Nat.zero_le i) hi htrig

/-- Witness for C1 at a concrete input: a single 200 response with
Ratelimit-Remaining "0" and Ratelimit-Reset 10, observed at now = 3, schedules
a release with delta 10 - 3. -/
theorem request_gateRelease_witness :
    ((10 : Int) - 3) ∈
      (request (fun _ => ⟨200, some "0", 10, "b"⟩) (fun _ => 3)).deferredDeltas := by
  have h := (request_gateRelease (fun _ => ⟨200, some "0", 10, "b"⟩) (fun _ => 3)).2
    0 (by decide) (by decide)
  simpa using h

/-- Responses refuting C1 as stated: attempt 0 is a transient 500 with
Ratelimit-Remaining "0" (defer scheduled), attempt 1 is a plain 200 with
Ratelimit-Remaining "5". -/
def respC1 : Nat → Resp := fun i =>
  if i = 0 then ⟨500, some "0", 42, "x"⟩ else ⟨200, some "5", 0, "y"⟩

/-- Counterexample to C1 as stated: the call returns with a final response
whose Ratelimit-Remaining is not "0" (an "other" response), yet the gate is
not released immediately when the call returns, because an earlier attempt of
the same call deferred the release. -/
theorem request_gateRelease_counterexample :
    (request respC1 (fun _ => 7)).result = .ok "y" ∧
    (request respC1 (fun _ => 7)).attemptsEnd = 2 ∧
    deferTriggered (respC1 1) = false ∧
    (request respC1 (fun _ => 7)).releasedImmediately = false := by
  decide

/-- Responses exhibiting the C2 bug: attempts 0 and 1 are transient 500s, both
with Ratelimit-Remaining "0", attempt 2 succeeds. -/
def respC2 : Nat → Resp := fun i =>
  if i ≤ 1 then ⟨500, some "0", 100, "e"⟩ else ⟨200, some "5", 0, "ok"⟩

/-- C2 (code bug): one execute call can schedule lock.release with
loop.call_later once per qualifying response of its retry loop, so a single
gate acquisition is released twice (and the deferred callbacks can fire while
a later retry attempt of the same call is still in flight). -/
theorem request_doubleRelease_bug :
    (request respC2 (fun _ => 0)).deferredDeltas.length = 2 ∧
    (request respC2 (fun _ => 0)).releasedImmediately = false ∧
    (request respC2 (fun _ => 0)).result = .ok "ok" := by
  decide

/-- Running the attempt loop over k transient responses consumes k units of
fuel, advances the attempt counter by k, and appends the backoff sleeps
1 + attempt * 2 for each skipped attempt. -/
theorem requestGo_transient_steps (resp : Nat → Resp) (nowAt : Nat → Int) :
    ∀ (k fuel attempt : Nat) (unlock : Bool) (sleeps : List Nat) (defs : List Int),
      k ≤ fuel →
      (∀ i, attempt ≤ i → i < attempt + k → transientStatus (resp i).status = true) →
      ∃ u d, requestGo resp nowAt fuel attempt unlock sleeps defs
        = requestGo resp nowAt (fuel - k) (attempt + k) u
            (sleeps ++ (List.range' attempt k).map (fun a => 1 + a * 2)) d := by
  intro k
  induction k with
  | zero =>
    intro fuel attempt unlock sleeps defs _ _
    exact ⟨unlock, defs, by simp⟩
  | succ k ih =>
    intro fuel attempt unlock sleeps defs hk h
    obtain ⟨f, rfl⟩ : ∃ f, fuel = f + 1 := ⟨fuel - 1, by omega⟩
    have ht : transientStatus (resp attempt).status = true :=
      h attempt (le_refl _) (by omega)
    have h2 : ¬(200 ≤ (resp attempt).status ∧ (resp attempt).status < 300) :=
      transient_not_success ht
    obtain ⟨u, d, heq⟩ := ih f (attempt + 1)
      (if deferTriggered (resp attempt) then false else unlock)
      (sleeps ++ [1 + attempt * 2])
      (if deferTriggered (resp attempt) then
        defs ++ [(resp attempt).reset - nowAt attempt] else defs)
      (by omega) (fun i h₁ h₂ => h i (by omega) (by omega))
    refine ⟨u, d, ?_⟩
    rw [show requestGo resp nowAt (f + 1) attempt unlock sleeps defs
        = requestGo resp nowAt f (attempt + 1)
            (if deferTriggered (resp attempt) then false else unlock)
            (sleeps ++ [1 + attempt * 2])
            (if deferTriggered (resp attempt) then
              defs ++ [(resp attempt).reset - nowAt attempt] else defs) from by
      simp only [requestGo, if_neg h2, ht, if_true]]
    rw [heq]
    have e₁ : f - k = f + 1 - (k + 1) := by omega
    have e₂ : attempt + 1 + k = attempt + (k + 1) := by omega
    rw [e₁, e₂, List.range'_succ, List.map_cons, List.append_assoc,
      List.singleton_append]

/-- C4: over one execute call, the first k responses being transient
(statuses in {429, 500, 502, 503}) each cause a backoff sleep of
1 + attempt * 2 seconds; a following success status in [200, 300) returns the
decoded body; a following non-2xx non-transient status raises the HTTP error
with that status and decoded body, with no further retry; and five transient
responses raise the same HTTP error type carrying the fifth response. -/
theorem request_retrySemantics (resp : Nat → Resp) (nowAt : Nat → Int) :
    (∀ k, k < 5 → (∀ i, i < k → transientStatus (resp i).status = true) →
      ((200 ≤ (resp k).status ∧ (resp k).status < 300 →
        (request resp nowAt).result = .ok (resp k).body ∧
        (request resp nowAt).sleeps = (List.range k).map (fun a => 1 + a * 2)) ∧
       (¬(200 ≤ (resp k).status ∧ (resp k).status < 300) →
        transientStatus (resp k).status = false →
        (request resp nowAt).result = .httpError (resp k).status (resp k).body ∧
        (request resp nowAt).sleeps = (List.range k).map (fun a => 1 + a * 2)))) ∧
    ((∀ i, i < 5 → transientStatus (resp i).status = true) →
      (request resp nowAt).result = .httpError (resp 4).status (resp 4).body ∧
      (request resp nowAt).sleeps = (List.range 5).map (fun a => 1 + a * 2)) := by
  constructor
  · intro k hk hpre
    obtain ⟨u, d, heq⟩ := requestGo_transient_steps resp nowAt k 5 0 true [] []
      (by omega) (fun i h₁ h₂ => hpre i (by omega))
    obtain ⟨m, hm⟩ : ∃ m, 5 - k = m + 1 := ⟨4 - k, by omega⟩
    rw [List.nil_append, ← List.range_eq_range'] at heq
    unfold request
    rw [heq, hm]
    constructor
    · intro h2
      simp only [requestGo, Nat.zero_add, if_pos h2]
      constructor <;> trivial
    · intro h2 hnt
      simp only [requestGo, Nat.zero_add, if_neg h2, hnt, if_false,
        Bool.false_eq_true]
      constructor <;> trivial
  · intro hall
    obtain ⟨u, d, heq⟩ := requestGo_transient_steps resp nowAt 5 5 0 true [] []
      (by omega) (fun i h₁ h₂ => hall i (by omega))
    rw [List.nil_append, ← List.range_eq_range'] at heq
    unfold request
    rw [heq]
    simp only [requestGo, Nat.zero_add]
    constructor <;> trivial

/-- Witness for C4 at a concrete input: a first response of status 200 returns
its body with no sleeps. -/
theorem request_retrySemantics_witness :
    (request (fun _ => ⟨200, some "5", 0, "yes"⟩) (fun _ => 0)).result
        = .ok "yes" ∧
    (request (fun _ => ⟨200, some "5", 0, "yes"⟩) (fun _ => 0)).sleeps = [] := by
  have h := ((request_retrySemantics (fun _ => ⟨200, some "5", 0, "yes"⟩)
    (fun _ => 0)).1 0 (by decide) (fun i hi => absurd hi (by omega))).1
    (by decide)
  simpa using h

/-- Headers set by HTTPClient.request before the attempt loop: Client-ID is
always present; Authorization is added iff self.token is truthy (a non-None,
non-empty string). -/
def requestHeaders (clientId : String) (token : Option String) :
    List (String × String) :=
  let hs := [("Client-ID", clientId)]
  match token with
  | some t => if t = "" then hs else hs ++ [("Authorization", "Bearer " ++ t)]
  | none => hs

/-- Counterexample to C9 as stated: the dispatcher's outgoing headers carry no
header named exactly Client-Id; the header the code emits is spelled
Client-ID. -/
theorem requestHeaders_counterexample :
    (requestHeaders "abc" none).lookup "Client-Id" = none ∧
    (requestHeaders "abc" none).lookup "Client-ID" = some "abc" := by
  decide

/-- C9 (amended): every request carries a header named exactly Client-ID with
the client identifier, and a header Authorization with value Bearer token iff
a truthy (non-empty) token is set. -/
theorem requestHeaders_spec (clientId : String) (token : Option String) :
    (requestHeaders clientId token).lookup "Client-ID" = some clientId ∧
    (requestHeaders clientId token).lookup "Authorization" =
      (match token with
       | some t => if t = "" then none else some ("Bearer " ++ t)
       | none => none) := by
  cases token with
  | none => exact ⟨rfl, rfl⟩
  | some t =>
    by_cases ht : t = ""
    · rw [requestHeaders]
      simp only [ht, if_pos rfl]
      exact ⟨rfl, rfl⟩
    · rw [requestHeaders]
      simp only [if_neg ht]
      exact ⟨rfl, rfl⟩

/-- Loop body of chunks (src/twitch/utils.py): yields successive n-sized
slices of lst. fuel bounds the loop; lst.length iterations always suffice for
n >= 1 because every step drops at least one element. The send-an-override
feature of the generator is unused by the iterators and not modelled; Python
diverges for n = 0, and every call site uses n in {50, 100}. -/
def chunksGo (n : Nat) : Nat → List α → List (List α)
  | 0, _ => []
  | _, [] => []
  | fuel + 1, x :: xs => (x :: xs).take n :: chunksGo n fuel ((x :: xs).drop n)

/-- chunks (src/twitch/utils.py): partition lst into successive n-sized
slices, the last one possibly shorter. -/
def chunks (lst : List α) (n : Nat) : List (List α) :=
  chunksGo n lst.length lst

/-- Outcome of one buffer refill: the iterator state afterwards, the number of
dispatcher calls made, and the propagated HTTP error if the dispatcher
raised. -/
structure FillResult (σ E : Type) where
  state : σ
  calls : Nat
  error : Option E
deriving DecidableEq

/-- Python next(generator, None) on the modelled chunk stream: the head batch
if any, and the remaining stream. -/
def popBatch : List (List α) → Option (List α) × List (List α)
  | [] => (none, [])
  | b :: bs => (some b, bs)

/-- Result of one produce_next call: a record, the NoMoreItems end-of-sequence
signal, or a propagated dispatcher error. -/
inductive NextRes (R E : Type) where
  | item (r : R)
  | endOfSeq
  | err (e : E)
deriving DecidableEq

def isItem : NextRes R E → Bool
  | .item _ => true
  | _ => false

/-- State of a GameIterator: the yet-unconsumed id and name batches produced
by chunks(list(set(...)), 100) in __init__, and the asyncio.Queue buffer of
decoded records. -/
structure GameIterState (α R : Type) where
  idBatches : List (List α)
  nameBatches : List (List α)
  games : List R
deriving DecidableEq

/-- GameIterator.__init__ for given optional id and name lists: a falsy
argument (None or empty) contributes no batches; otherwise the list is
deduplicated (list(set(...)), modelled as List.dedup, whose ordering is
immaterial to the claims) and chunked by 100. -/
def gameIterInit [DecidableEq α] (ids names : Option (List α)) :
    GameIterState α R :=
  { idBatches := chunks (ids.getD []).dedup 100
    nameBatches := chunks (names.getD []).dedup 100
    games := [] }

/-- GameIterator.fill_games: advance both chunk generators first, return if
both are exhausted, otherwise make exactly one dispatcher call; an HTTP error
propagates after the advancement, and an empty data array contributes zero
records. The dispatcher argument stands for client.http.get_games and returns
the decoded data array. -/
def fillGames (disp : Option (List α) → Option (List α) → Except E (List R))
    (st : GameIterState α R) : FillResult (GameIterState α R) E :=
  let ids := (popBatch st.idBatches).1
  let names := (popBatch st.nameBatches).1
  let st₁ : GameIterState α R :=
    { st with idBatches := (popBatch st.idBatches).2
              nameBatches := (popBatch st.nameBatches).2 }
  if ids.isNone && names.isNone then
    { state := st₁, calls := 0, error := none }
  else
    match disp ids names with
    | .error e => { state := st₁, calls := 1, error := some e }
    | .ok data => { state := { st₁ with games := st₁.games ++ data }
                    calls := 1, error := none }

/-- GameIterator.next: refill when the buffer is empty, then pop the buffer or
raise NoMoreItems; a dispatcher error propagates out of the refill. Returns
the produced result, the state afterwards, and the dispatcher calls made. -/
def gameNext (disp : Option (List α) → Option (List α) → Except E (List R))
    (st : GameIterState α R) : NextRes R E × GameIterState α R × Nat :=
  if st.games.isEmpty then
    let f := fillGames disp st
    match f.error with
    | some e => (.err e, f.state, f.calls)
    | none =>
      match f.state.games with
      | [] => (.endOfSeq, f.state, f.calls)
      | r :: rest => (.item r, { f.state with games := rest }, f.calls)
  else
    match st.games with
    | [] => (.endOfSeq, st, 0)
    | r :: rest => (.item r, { st with games := rest }, 0)

/-- Drive n produce_next calls against a GameIterator, collecting the results
and the total number of dispatcher calls. -/
def runGameNexts (disp : Option (List α) → Option (List α) → Except E (List R)) :
    Nat → GameIterState α R → List (NextRes R E) × Nat
  | 0, _ => ([], 0)
  | n + 1, st =>
    let (res, st₁, c) := gameNext disp st
    let (rest, cs) := runGameNexts disp n st₁
    (res :: rest, c + cs)

/-- Dispatcher stub for the C6 scenario: each batched call succeeds and
returns one record per key. -/
def dispC6 : Option (List Nat) → Option (List Nat) → Except Unit (List Nat) :=
  fun ids names => .ok ((ids.getD []) ++ (names.getD []))

set_option maxRecDepth 100000 in
/-- C6: input keys are deduplicated and partitioned into batches of at most
100; 250 unique ids produce batches of sizes 100, 100 and 50, exactly 3
dispatcher calls over a full drain, with end-of-sequence signalled by the
251st produce_next (the 4th refill-triggering call after the buffer is
drained); duplicate input a, a, b yields the single batch containing exactly
a and b. -/
theorem gameIterator_batching :
    ((gameIterInit (R := Nat) (some (List.range 250)) none).idBatches.map
        List.length = [100, 100, 50]) ∧
    (runGameNexts dispC6 251 (gameIterInit (some (List.range 250)) none)
      = ((List.range 250).map NextRes.item ++ [NextRes.endOfSeq], 3)) ∧
    ((gameIterInit (R := String) (some ["a", "a", "b"]) none).idBatches
      = [["a", "b"]]) := by
  refine ⟨by decide, by decide, by decide⟩

/-- One decoded response page for get_streams: the data array and the
optional pagination cursor (resp, pagination, cursor). -/
structure StreamPage (R : Type) where
  data : List R
  cursor : Option String
deriving DecidableEq

/-- State of a StreamIterator: the remaining-item budget self.limit (none
models Python None, the unbounded case), the opaque cursor self._cursor, and
the asyncio.Queue buffer. The filter dict is fixed after filter() returns and
is carried inside the dispatcher closure. -/
structure StreamIterState (R : Type) where
  limit : Option Int
  cursor : Option String
  streams : List R
deriving DecidableEq

/-- StreamIterator._get_retrieve: the page size for the next fetch; the fetch
proceeds iff it is positive. -/
def retrieveOf : Option Int → Int
  | none => 100
  | some l => if l > 100 then 100 else l

/-- StreamIterator.fill_streams: fetch only when retrieve > 0; a short page
(< 100 records) zeroes the budget, otherwise a bounded budget is decremented
by the page size; the cursor is updated only from a truthy pagination cursor.
The dispatcher argument stands for client.http.get_streams applied to
(first=retrieve, after=cursor, **filter) and returns the decoded page. -/
def fillStreams (disp : Int → Option String → Except E (StreamPage R))
    (st : StreamIterState R) : FillResult (StreamIterState R) E :=
  if 0 < retrieveOf st.limit then
    match disp (retrieveOf st.limit) st.cursor with
    | .error e => { state := st, calls := 1, error := some e }
    | .ok page =>
      let limit₁ : Option Int :=
        if page.data.length < 100 then some 0
        else match st.limit with
          | some l => some (l - page.data.length)
          | none => none
      let cursor₁ : Option String :=
        match page.cursor with
        | some c => if c = "" then st.cursor else some c
        | none => st.cursor
      { state := { limit := limit₁, cursor := cursor₁
                   streams := st.streams ++ page.data }
        calls := 1, error := none }
  else
    { state := st, calls := 0, error := none }

/-- StreamIterator.next: refill when the buffer is empty, then pop the buffer
or raise NoMoreItems; a dispatcher error propagates out of the refill. -/
def streamNext (disp : Int → Option String → Except E (StreamPage R))
    (st : StreamIterState R) : NextRes R E × StreamIterState R × Nat :=
  if st.streams.isEmpty then
    let f := fillStreams disp st
    match f.error with
    | some e => (.err e, f.state, f.calls)
    | none =>
      match f.state.streams with
      | [] => (.endOfSeq, f.state, f.calls)
      | r :: rest => (.item r, { f.state with streams := rest }, f.calls)
  else
    match st.streams with
    | [] => (.endOfSeq, st, 0)
    | r :: rest => (.item r, { st with streams := rest }, 0)

/-- C7: cursor-discipline budget rules. When the budget is a non-positive
bound, no fetch is attempted (zero dispatcher calls, state unchanged) and
produce_next on an empty buffer signals end-of-sequence. After a fetch, a page
of fewer than 100 records forces the budget to zero whatever the original
limit was; otherwise a bounded budget is decremented by the page size and an
unbounded one (limit None) is never decremented. -/
theorem stream_budget (disp : Int → Option String → Except E (StreamPage R))
    (st : StreamIterState R) :
    (∀ l, st.limit = some l → l ≤ 0 →
      (fillStreams disp st).calls = 0 ∧
      (fillStreams disp st).state = st ∧
      (st.streams = [] → (streamNext disp st).1 = .endOfSeq)) ∧
    (∀ page, 0 < retrieveOf st.limit →
      disp (retrieveOf st.limit) st.cursor = .ok page →
      ((page.data.length < 100 → (fillStreams disp st).state.limit = some 0) ∧
       (100 ≤ page.data.length →
        (fillStreams disp st).state.limit
          = st.limit.map (fun l => l - (page.data.length : Int))))) := by
  constructor
  · intro l hl hle
    have hr : retrieveOf st.limit = l := by
      rw [hl]
      show (if l > 100 then (100 : Int) else l) = l
      rw [if_neg (by omega)]
    have hneg : ¬ 0 < retrieveOf st.limit := by rw [hr]; omega
    have hfill : fillStreams disp st = { state := st, calls := 0, error := none } := by
      unfold fillStreams
      rw [if_neg hneg]
    refine ⟨by rw [hfill], by rw [hfill], ?_⟩
    intro hq
    unfold streamNext
    rw [if_pos (by rw [hq]; rfl), hfill]
    simp only [hq]
  · intro page hpos hdisp
    have hfill := hpos
    constructor
    · intro hshort
      unfold fillStreams
      rw [if_pos hpos, hdisp]
      simp only [if_pos hshort]
    · intro hfull
      unfold fillStreams
      rw [if_pos hpos, hdisp]
      simp only [if_neg (by omega : ¬ page.data.length < 100)]
      cases st.limit <;> rfl

/-- Witness for C7 at a concrete input: with limit 0 the fill makes no
dispatcher call and leaves the state unchanged, and produce_next signals
end-of-sequence; with limit 150 a full page of 100 leaves limit 50. -/
theorem stream_budget_witness :
    ((fillStreams (R := Nat) (E := Unit) (fun _ _ => .error ())
        ⟨some 0, none, []⟩).calls = 0 ∧
      (fillStreams (R := Nat) (E := Unit) (fun _ _ => .error ())
        ⟨some 0, none, []⟩).state = ⟨some 0, none, []⟩ ∧
      ([] = ([] : List Nat) →
        (streamNext (R := Nat) (E := Unit) (fun _ _ => .error ())
          ⟨some 0, none, []⟩).1 = .endOfSeq)) ∧
    (fillStreams (R := Nat) (E := Unit)
        (fun _ _ => .ok ⟨List.range 100, some "c"⟩)
        ⟨some 150, none, []⟩).state.limit = some 50 := by
  constructor
  · exact (stream_budget (fun _ _ => .error ()) ⟨some 0, none, []⟩).1 0 rfl
      (by omega)
  · have h := ((stream_budget (R := Nat) (E := Unit)
      (fun _ _ => .ok ⟨List.range 100, some "c"⟩)
      ⟨some 150, none, []⟩).2 ⟨List.range 100, some "c"⟩
      (by decide) rfl).2 (by simp)
    simpa using h

/-- Dispatchers that fail for the C5 scenarios. -/
def gdispFail : Option (List String) → Option (List String) →
    Except Unit (List String) :=
  fun _ _ => .error ()

def sdispFail : Int → Option String → Except Unit (StreamPage String) :=
  fun _ _ => .error ()

/-- Counterexample to C5 as stated: a GameIterator holding two id batches
whose refill fails with a dispatcher error propagates the error, but its
internal state is not what it was before the failed refill: the head batch has
already been consumed, so a retry would fetch the next batch. -/
theorem refill_error_counterexample :
    (fillGames gdispFail ⟨[["a"], ["b"]], [], []⟩).error = some () ∧
    (fillGames gdispFail ⟨[["a"], ["b"]], [], []⟩).state
      ≠ (⟨[["a"], ["b"]], [], []⟩ : GameIterState String String) ∧
    (fillGames gdispFail ⟨[["a"], ["b"]], [], []⟩).state.idBatches = [["b"]] := by
  refine ⟨by decide, by decide, by decide⟩

/-- C5 (amended): a dispatcher HTTP error propagates out of a refill
unchanged; the cursor-discipline StreamIterator's state (budget, cursor,
buffer) is exactly what it was before the failed refill, so retrying repeats
the same refill, while the key-batched GameIterator has already advanced its
batch generators when the error propagates, so a retry proceeds with the next
batches. -/
theorem refill_error_propagation
    (gdisp : Option (List α) → Option (List α) → Except E (List R))
    (st : GameIterState α R) (e : E)
    (sdisp : Int → Option String → Except E (StreamPage R₂))
    (sst : StreamIterState R₂)
    (hgs : ((popBatch st.idBatches).1.isNone &&
      (popBatch st.nameBatches).1.isNone) = false)
    (hg : gdisp (popBatch st.idBatches).1 (popBatch st.nameBatches).1
      = .error e)
    (hpos : 0 < retrieveOf sst.limit)
    (hs : sdisp (retrieveOf sst.limit) sst.cursor = .error e) :
    (fillGames gdisp st).error = some e ∧
    (fillGames gdisp st).state
      = { st with idBatches := (popBatch st.idBatches).2
                  nameBatches := (popBatch st.nameBatches).2 } ∧
    (fillStreams sdisp sst).error = some e ∧
    (fillStreams sdisp sst).state = sst := by
  have hgame : fillGames gdisp st =
      { state := { st with idBatches := (popBatch st.idBatches).2
                           nameBatches := (popBatch st.nameBatches).2 }
        calls := 1, error := some e } := by
    unfold fillGames
    rw [if_neg (by rw [hgs]; exact Bool.false_ne_true), hg]
  have hstream : fillStreams sdisp sst =
      { state := sst, calls := 1, error := some e } := by
    unfold fillStreams
    rw [if_pos hpos, hs]
  exact ⟨by rw [hgame], by rw [hgame], by rw [hstream], by rw [hstream]⟩

/-- Witness for C5 at a concrete input: a GameIterator with one id batch and a
StreamIterator with budget 5, both against failing dispatchers. -/
theorem refill_error_propagation_witness :
    (fillGames gdispFail ⟨[["a"]], [], []⟩).error = some () ∧
    (fillGames gdispFail ⟨[["a"]], [], []⟩).state
      = ({ idBatches := [], nameBatches := [], games := [] } :
          GameIterState String String) ∧
    (fillStreams sdispFail ⟨some 5, none, []⟩).error = some () ∧
    (fillStreams sdispFail ⟨some 5, none, []⟩).state = ⟨some 5, none, []⟩ :=
  refill_error_propagation gdispFail ⟨[["a"]], [], []⟩ () sdispFail
    ⟨some 5, none, []⟩ (by decide) rfl (by decide) rfl

/-- Arguments of StreamIterator.filter. -/
structure FilterArgs where
  userIds : Option (List String)
  userLogins : Option (List String)
  gameIds : Option (List String)
  languages : Option (List String)
deriving DecidableEq

/-- Python truthiness of an optional list argument: None and the empty list
are falsy. -/
def truthyList : Option (List String) → Bool
  | some (_ :: _) => true
  | _ => false

/-- The list-typed entries with which filter() updates self._filter (the
isinstance(v, list) comprehension keeps every non-None argument, empty lists
included). -/
def filterEntries (f : FilterArgs) : List (String × List String) :=
  (match f.userIds with | some l => [("user_ids", l)] | none => []) ++
  (match f.userLogins with | some l => [("user_logins", l)] | none => []) ++
  (match f.gameIds with | some l => [("game_ids", l)] | none => []) ++
  (match f.languages with | some l => [("languages", l)] | none => [])

/-- StreamIterator.filter: the four bound checks, in source order, performed
synchronously before the filter dict update; the function touches no
dispatcher, so an OverflowError is raised before any network call. -/
def filterCheck (f : FilterArgs) : Except String (List (String × List String)) :=
  if truthyList f.userIds && 100 < (f.userIds.getD []).length then
    .error "Too many user IDs. Maximum: 100"
  else if truthyList f.userLogins && 100 < (f.userLogins.getD []).length then
    .error "Too many user logins. Maximum: 100"
  else if truthyList f.gameIds && 10 < (f.gameIds.getD []).length then
    .error "Too many game IDs. Maximum: 10"
  else if truthyList f.languages && 100 < (f.languages.getD []).length then
    .error "Too many languages. Maximum: 100"
  else
    .ok (filterEntries f)

def isErr : Except ε β → Bool
  | .error _ => true
  | .ok _ => false

/-- C8: filter configuration errors. filter() raises exactly when a supplied
filter list exceeds its bound: more than 100 user ids, more than 100 user
logins, more than 10 game ids, or more than 100 languages; and a filter list
of 101 ids raises. filterCheck takes no dispatcher, matching the source where
the raise precedes any network call. -/
theorem filter_bounds :
    (∀ f : FilterArgs,
      isErr (filterCheck f) = true ↔
        ((truthyList f.userIds && 100 < (f.userIds.getD []).length) = true ∨
         (truthyList f.userLogins && 100 < (f.userLogins.getD []).length) = true ∨
         (truthyList f.gameIds && 10 < (f.gameIds.getD []).length) = true ∨
         (truthyList f.languages && 100 < (f.languages.getD []).length) = true)) ∧
    isErr (filterCheck ⟨some (List.replicate 101 "x"), none, none, none⟩) = true := by
  constructor
  · intro f
    unfold filterCheck
    by_cases h₁ : (truthyList f.userIds && 100 < (f.userIds.getD []).length) = true
    · rw [if_pos h₁]
      simp [isErr, h₁]
    · rw [if_neg h₁]
      by_cases h₂ :
          (truthyList f.userLogins && 100 < (f.userLogins.getD []).length) = true
      · rw [if_pos h₂]
        simp [isErr, h₂]
      · rw [if_neg h₂]
        by_cases h₃ : (truthyList f.gameIds && 10 < (f.gameIds.getD []).length) = true
        · rw [if_pos h₃]
          simp [isErr, h₃]
        · rw [if_neg h₃]
          by_cases h₄ :
              (truthyList f.languages && 100 < (f.languages.getD []).length) = true
          · rw [if_pos h₄]
            simp [isErr, h₄]
          · rw [if_neg h₄]
            simp [isErr, h₁, h₂, h₃, h₄]
  · decide

/-- Python errors surfaced by UserIterator.fill_users: the TypeError raised by
len() on an itertools.islice object, or a propagated dispatcher HTTP error. -/
inductive PyErr (E : Type) where
  | typeErr
  | http (e : E)
deriving DecidableEq

/-- State of a UserIterator: self.ids and self.logins are each either None (a
falsy constructor argument) or a chunk generator; plus the buffer. -/
structure UserIterState (α R : Type) where
  idBatches : Option (List (List α))
  loginBatches : Option (List (List α))
  users : List R
deriving DecidableEq

/-- UserIterator.fill_users. When both generators are None the method calls
_get_elements(None, None) directly. Otherwise it advances each present
generator; if both yielded a batch, the combined-size test evaluates
len(ids) + len(logins) on itertools.islice objects, which support no len(),
so Python raises TypeError before any dispatcher call (islice objects are
always truthy, and chunks never yields an empty slice); with only one batch
present a single dispatcher call is made. The dispatcher argument stands for
client.http.get_users and returns the decoded data array. -/
def fillUsers (disp : Option (List α) → Option (List α) → Except E (List R))
    (st : UserIterState α R) : FillResult (UserIterState α R) (PyErr E) :=
  match st.idBatches, st.loginBatches with
  | none, none =>
    match disp none none with
    | .error e => { state := st, calls := 1, error := some (.http e) }
    | .ok data => { state := { st with users := st.users ++ data }
                    calls := 1, error := none }
  | ib, lb =>
    let ids := match ib with
      | none => none
      | some bs => (popBatch bs).1
    let idb := match ib with
      | none => none
      | some bs => some (popBatch bs).2
    let logins := match lb with
      | none => none
      | some bs => (popBatch bs).1
    let lgb := match lb with
      | none => none
      | some bs => some (popBatch bs).2
    let st₁ : UserIterState α R :=
      { st with idBatches := idb, loginBatches := lgb }
    if ids.isNone && logins.isNone then
      { state := st₁, calls := 0, error := none }
    else if ids.isSome && logins.isSome then
      { state := st₁, calls := 0, error := some .typeErr }
    else
      match disp ids logins with
      | .error e => { state := st₁, calls := 1, error := some (.http e) }
      | .ok data => { state := { st₁ with users := st₁.users ++ data }
                      calls := 1, error := none }

/-- Dispatcher stub for the C10 scenario; never reached on the failing
input. -/
def dispC10 : Option (List String) → Option (List String) →
    Except Unit (List String) :=
  fun ids logins => .ok ((ids.getD []) ++ (logins.getD []))

/-- C10 (code bug): whenever both an id batch and a login batch are active,
fill_users evaluates len() on itertools.islice objects and raises TypeError
before issuing any dispatcher call, instead of splitting the batches into
sub-batches of at most 50 and issuing paired calls. Shown here on a refill
with one id and one login. -/
theorem fillUsers_typeError :
    (fillUsers dispC10 ⟨some [["a"]], some [["b"]], []⟩).error
      = some PyErr.typeErr ∧
    (fillUsers dispC10 ⟨some [["a"]], some [["b"]], []⟩).calls = 0 := by
  refine ⟨by decide, by decide⟩

end Twitch
